import Mathlib

/-!
Verification of the image-synthesis pipeline of `gh-stats-gif-server`
(`src/main.go`) against its natural-language specification.

The Go source is shallowly embedded below:

* `resizeImage` (main.go lines 252-287) — nearest-neighbor resampling.
  The Go code computes source coordinates in IEEE-754 binary64
  (`float64`) arithmetic; that arithmetic is modelled exactly on `ℚ` by
  `fl`, correct rounding to 53 significant bits, round-to-nearest,
  ties-to-even, with unbounded exponent (faithful to binary64 on the
  normal, non-overflowing range, the only range these computations
  reach for representable bitmaps).
* `getFontFace` and the global `fontCache` (lines 80-81, 289-332) —
  modelled as explicit state passing, with the filesystem and the
  `opentype` library abstracted into a `FontEnv` and a read log
  recording each `ioutil.ReadFile` call.
* the theme table and its lookup (lines 58-78, 97-101).
* `createStatsImage` / `addLabel` (lines 335-400) — the canvas is a
  pixel function; the external `font.Drawer.DrawString` rasterizer is a
  parameter; each `addLabel` invocation is also recorded in a trace.
-/

/-! ## IEEE-754 binary64 arithmetic, modelled exactly on ℚ -/

/-- Fuel-driven base-2 logarithm on ℕ (⌊log₂ n⌋ for n ≥ 1). -/
def log2F : ℕ → ℕ → ℕ
  | 0, _ => 0
  | fuel + 1, n => if n < 2 then 0 else log2F fuel (n / 2) + 1

/-- ⌊log₂ n⌋ for n ≥ 1 (0 for n = 0). -/
def nlog2 (n : ℕ) : ℕ := log2F n n

/-- Round the fraction a / b (b > 0) to the nearest integer,
ties to even. -/
def rnEven (a b : ℕ) : ℕ :=
  let n := a / b
  let r := a % b
  if 2 * r < b then n
  else if b < 2 * r then n + 1
  else if n % 2 = 0 then n else n + 1

/-- ⌊log₂ (a / b)⌋ for a, b ≥ 1, as an integer (may be negative). -/
def qlog2 (a b : ℕ) : ℤ :=
  let d : ℤ := (nlog2 a : ℤ) - (nlog2 b : ℤ)
  if b * 2 ^ nlog2 a ≤ a * 2 ^ nlog2 b then d else d - 1

/-- 2 ^ t as a rational, for t : ℤ. -/
def pow2 (t : ℤ) : ℚ :=
  if 0 ≤ t then ((2 ^ t.toNat : ℕ) : ℚ) else ((2 ^ (-t).toNat : ℕ) : ℚ)⁻¹

/-- Correct rounding of a nonnegative rational to IEEE-754 binary64:
round the significand to 53 bits, nearest, ties to even (unbounded
exponent; exact for binary64's normal range).  Only nonnegative values
arise in the embedded code; nonpositive input returns 0 (exact for 0). -/
def fl (q : ℚ) : ℚ :=
  if q ≤ 0 then 0
  else
    let a := q.num.toNat
    let b := q.den
    let t : ℤ := qlog2 a b - 52
    let n : ℕ := if 0 ≤ t then rnEven a (b * 2 ^ t.toNat) else rnEven (a * 2 ^ (-t).toNat) b
    (n : ℚ) * pow2 t

/-- Go conversion `float64(n)` for n : ℤ (round to nearest even). -/
def flz (n : ℤ) : ℚ := if n < 0 then -(fl (-(n : ℚ))) else fl (n : ℚ)

/-- Go conversion `int(q)` of a float value: truncation toward zero. -/
def goInt (q : ℚ) : ℤ :=
  if 0 ≤ q then ((q.num.toNat / q.den : ℕ) : ℤ) else -(((-q).num.toNat / (-q).den : ℕ) : ℤ)

theorem fl_nonneg (q : ℚ) : 0 ≤ fl q := by
  unfold fl
  split
  · exact le_refl 0
  · refine mul_nonneg (Nat.cast_nonneg _) ?_
    unfold pow2
    split
    · exact Nat.cast_nonneg _
    · exact inv_nonneg.mpr (Nat.cast_nonneg _)

theorem goInt_nonneg (q : ℚ) (h : 0 ≤ q) : 0 ≤ goInt q := by
  unfold goInt
  rw [if_pos h]
  exact Int.ofNat_nonneg _

/-! ## Image model

A Go `image.Image` is abstracted by its bounds and its `At(x, y).RGBA()`
readout: four alpha-premultiplied 16-bit channels (`color.Color.RGBA`
returns `uint32` values in `[0, 0xffff]`).  A Go `*image.RGBA` produced
by `resizeImage` has 8-bit channels and min corner `(0, 0)`. -/

/-- The four 16-bit channel values returned by Go's `color.Color.RGBA()`. -/
structure GoColor64 where
  r : ℕ
  g : ℕ
  b : ℕ
  a : ℕ
deriving DecidableEq

/-- An 8-bit RGBA pixel (Go `color.RGBA`). -/
structure RGBA8 where
  r : ℕ
  g : ℕ
  b : ℕ
  a : ℕ
deriving DecidableEq

/-- Go `color.RGBA{uint8(r >> 8), uint8(g >> 8), uint8(b >> 8), uint8(a >> 8)}`
(main.go line 282): shift out the low byte, then truncate to `uint8`. -/
def quant (c : GoColor64) : RGBA8 :=
  ⟨c.r / 256 % 256, c.g / 256 % 256, c.b / 256 % 256, c.a / 256 % 256⟩

/-- A source image: bounds plus the `At(x, y).RGBA()` readout. -/
structure GoImage where
  minX : ℤ
  minY : ℤ
  maxX : ℤ
  maxY : ℤ
  atRGBA : ℤ → ℤ → GoColor64

/-- An `*image.RGBA` with min corner `(0, 0)`; pixels outside the bounds
are the zero value (Go's freshly allocated buffer). -/
structure RGBAImage where
  width : ℕ
  height : ℕ
  pix : ℕ → ℕ → RGBA8

/-- Source-coordinate computation of `resizeImage` (main.go lines 262-278)
for one axis: `srcX := int(float64(x) * xRatio)` with
`xRatio := float64(srcWidth) / float64(width)`, followed by the upper
clamp `if srcX >= srcWidth { srcX = srcWidth - 1 }`.  All floating-point
steps are binary64, modelled by `fl`. -/
def clampCoord (srcW : ℤ) (target : ℕ) (x : ℕ) : ℤ :=
  let ratio := fl (flz srcW / fl (target : ℚ))
  let c := goInt (fl (fl (x : ℚ) * ratio))
  if srcW ≤ c then srcW - 1 else c

/-- Embedding of `resizeImage` (main.go lines 252-287): nearest-neighbor
resampling into a fresh `width × height` RGBA image.  Pixels outside the
target rectangle keep the zero value, as in Go's freshly allocated
`image.NewRGBA` buffer. -/
def resizeImage (src : GoImage) (width height : ℕ) : RGBAImage :=
  let srcWidth := src.maxX - src.minX
  let srcHeight := src.maxY - src.minY
  { width := width
    height := height
    pix := fun x y =>
      if x < width ∧ y < height then
        quant (src.atRGBA (src.minX + clampCoord srcWidth width x)
                          (src.minY + clampCoord srcHeight height y))
      else ⟨0, 0, 0, 0⟩ }

theorem clampCoord_nonneg (srcW : ℤ) (target : ℕ) (x : ℕ) (h : 1 ≤ srcW) :
    0 ≤ clampCoord srcW target x := by
  simp only [clampCoord]
  split
  · omega
  · exact goInt_nonneg _ (fl_nonneg _)

theorem clampCoord_lt (srcW : ℤ) (target : ℕ) (x : ℕ) :
    clampCoord srcW target x < srcW := by
  simp only [clampCoord]
  split
  · omega
  · omega

/-! ## Theme model (main.go lines 49-78 and 97-101)

Colors are stored as the 16-bit `RGBA()` readout of the Go
`color.Color` values in the theme table: `color.RGBA{r, g, b, 255}`
reads back as `(r*0x101, g*0x101, b*0x101, 0xffff)`, `color.White`
(`color.Gray16{0xffff}`) as `(0xffff, 0xffff, 0xffff, 0xffff)` and
`color.Black` (`color.Gray16{0}`) as `(0, 0, 0, 0xffff)`. -/

/-- A theme: the four colors of main.go lines 50-55. -/
structure Theme where
  BGColor : GoColor64
  TextColor : GoColor64
  TitleColor : GoColor64
  StatsColor : GoColor64
deriving DecidableEq

/-- The 16-bit readout of `color.RGBA{r, g, b, a}`. -/
def rgba (r g b a : ℕ) : GoColor64 := ⟨r * 257, g * 257, b * 257, a * 257⟩

/-- The `"light"` theme (main.go lines 59-64). -/
def lightTheme : Theme :=
  { BGColor := ⟨65535, 65535, 65535, 65535⟩
    TextColor := ⟨0, 0, 0, 65535⟩
    TitleColor := rgba 40 120 200 255
    StatsColor := rgba 50 50 50 255 }

/-- The `"dark"` theme (main.go lines 65-70). -/
def darkTheme : Theme :=
  { BGColor := rgba 30 30 30 255
    TextColor := rgba 230 230 230 255
    TitleColor := rgba 100 180 255 255
    StatsColor := rgba 200 200 200 255 }

/-- The `"a"` theme (main.go lines 72-77). -/
def aTheme : Theme :=
  { BGColor := rgba 255 240 240 255
    TextColor := rgba 80 20 20 255
    TitleColor := rgba 200 50 50 255
    StatsColor := rgba 120 40 40 255 }

/-- The theme table `themes` (main.go lines 58-78). -/
def themes : List (String × Theme) :=
  [("light", lightTheme), ("dark", darkTheme), ("a", aTheme)]

/-- Theme selection of the request handler (main.go lines 97-101):
`theme, ok := themes[themeName]; if !ok { theme = themes["light"] }`.
A Go map access that misses yields the zero value, so the fallback is
itself a lookup of `"light"`. -/
def resolveTheme (name : String) : Theme :=
  match themes.lookup name with
  | some t => t
  | none =>
    match themes.lookup "light" with
    | some t => t
    | none => ⟨⟨0, 0, 0, 0⟩, ⟨0, 0, 0, 0⟩, ⟨0, 0, 0, 0⟩, ⟨0, 0, 0, 0⟩⟩

/-! ## Font resolver and cache (main.go lines 80-81, 289-332)

`ioutil.ReadFile`, `opentype.Parse` and `opentype.NewFace` are external;
they are abstracted into a `FontEnv`: `readFile` maps a path to its
bytes (`none` = read error), `parse` maps bytes to a parsed font
(`none` = parse error), and `newFaceOk` tells whether face construction
succeeds for a parsed font at a size.  A constructed face records the
parsed font, the point size and the fixed 72 DPI passed to
`opentype.NewFace` (main.go lines 317-320), plus the path it came from.
`getFontFace` also returns the list of paths passed to
`ioutil.ReadFile`, in order, as an observable I/O log. -/

/-- A rasterizing font face as constructed at main.go lines 317-320. -/
structure FontFace where
  path : String
  font : ℕ
  size : ℤ
  dpi : ℕ
deriving DecidableEq

/-- The external filesystem and opentype library. -/
structure FontEnv where
  readFile : String → Option ℕ
  parse : ℕ → Option ℕ
  newFaceOk : ℕ → ℤ → Bool

/-- Reading and parsing a candidate path: `ioutil.ReadFile` then
`opentype.Parse` (main.go lines 307-315). -/
def parseOf (env : FontEnv) (p : String) : Option ℕ :=
  (env.readFile p).bind env.parse

/-- The global `fontCache` map (main.go line 81), passed as explicit
state. -/
def FontCache : Type := ℤ → Option FontFace

/-- Go `fontCache[size] = face` (main.go line 325). -/
def cacheInsert (cache : FontCache) (size : ℤ) (face : FontFace) : FontCache :=
  fun k => if k = size then some face else cache k

/-- The candidate font path list (main.go lines 296-304). -/
def fontPaths : List String :=
  ["/usr/share/fonts/truetype/inconsolata/Inconsolata.ttf",
   "/usr/share/fonts/truetype/inconsolata/Inconsolata-Regular.ttf",
   "/usr/share/fonts/opentype/inconsolata/Inconsolata-Regular.otf",
   "/usr/share/fonts/truetype/dejavu/DejaVuSansMono.ttf",
   "/usr/share/fonts/truetype/liberation/LiberationMono-Regular.ttf",
   "/System/Library/Fonts/Menlo.ttc",
   "C:\\Windows\\Fonts\\consola.ttf"]

/-- The candidate loop of `getFontFace` (main.go lines 306-327): try each
path in order with `ReadFile`, `Parse`, `NewFace`, skipping to the next
path on any error; on the first full success build the face.  Returns
the face (if any) and the log of paths passed to `ReadFile`. -/
def tryPaths (env : FontEnv) (size : ℤ) : List String → Option FontFace × List String
  | [] => (none, [])
  | p :: rest =>
    match env.readFile p with
    | none =>
      let r := tryPaths env size rest
      (r.1, p :: r.2)
    | some data =>
      match env.parse data with
      | none =>
        let r := tryPaths env size rest
        (r.1, p :: r.2)
      | some pf =>
        if env.newFaceOk pf size then (some ⟨p, pf, size, 72⟩, [p])
        else
          let r := tryPaths env size rest
          (r.1, p :: r.2)

/-- Embedding of `getFontFace` (main.go lines 290-332): cache hit returns
the cached face with no filesystem I/O; on a miss the candidate loop
runs, a success is stored in the cache, and a total failure returns the
nil face (`none`) leaving the cache untouched.  The third component is
the `ReadFile` log of this call. -/
def getFontFace (env : FontEnv) (cache : FontCache) (size : ℤ) :
    Option FontFace × FontCache × List String :=
  match cache size with
  | some face => (some face, cache, [])
  | none =>
    let r := tryPaths env size fontPaths
    match r.1 with
    | some face => (some face, cacheInsert cache size face, r.2)
    | none => (none, cache, r.2)

/-! ## Card compositor (main.go lines 335-400)

The canvas is an `RGBAImage`.  The external glyph rasterizer
`font.Drawer.DrawString` is a parameter `ds`, applied with the face,
the uniform source color, the fixed-point dot
`fixed.Point26_6{X: x*64, Y: y*64}` and the label (main.go lines
392-399).  Each `addLabel` invocation is also recorded as a `LabelCmd`
so the sequence of text-draw requests is observable. -/

/-- One `addLabel` invocation: anchor, text, color and point size. -/
structure LabelCmd where
  x : ℤ
  y : ℤ
  label : String
  clr : GoColor64
  size : ℤ
deriving DecidableEq

/-- Type of the external `font.Drawer.DrawString` rasterizer: face,
color, dot X (26.6 fixed point), dot Y, label, canvas. -/
def DrawStringFn : Type :=
  FontFace → GoColor64 → ℤ → ℤ → String → RGBAImage → RGBAImage

/-- Drawing step of `addLabel` (main.go lines 387-399): a nil face skips
the label, otherwise the rasterizer runs at dot `(x*64, y*64)`. -/
def addLabelDraw (ds : DrawStringFn) (img : RGBAImage) (x y : ℤ)
    (label : String) (clr : GoColor64) : Option FontFace → RGBAImage
  | none => img
  | some face => ds face clr (x * 64) (y * 64) label img

/-- Embedding of `addLabel` (main.go lines 385-400): resolve the face for
the size via `getFontFace` (threading the global cache), then draw or
skip.  The third component records the invocation. -/
def addLabel (env : FontEnv) (ds : DrawStringFn) (img : RGBAImage)
    (x y : ℤ) (label : String) (clr : GoColor64) (fontSize : ℤ)
    (cache : FontCache) : RGBAImage × FontCache × LabelCmd :=
  let r := getFontFace env cache fontSize
  (addLabelDraw ds img x y label clr r.1, r.2.1, ⟨x, y, label, clr, fontSize⟩)

/-- Go `fmt.Sprintf("<prefix>%d", n)`. -/
def sprintfD (pre : String) (n : ℤ) : String := pre ++ toString n

/-- The `StatsData` record (main.go lines 40-47) as consumed by the
renderer. -/
structure StatsData where
  Name : String
  Avatar : GoImage
  Followers : ℤ
  Following : ℤ
  PublicRepos : ℤ
  TotalStars : ℤ

/-- Background fill (main.go line 344): `draw.Draw` of a uniform source
with `draw.Src` over the whole canvas sets every pixel to the 8-bit
quantization of the color. -/
def fillBackground (width height : ℕ) (c : GoColor64) : RGBAImage :=
  { width := width
    height := height
    pix := fun x y => if x < width ∧ y < height then quant c else ⟨0, 0, 0, 0⟩ }

/-- Avatar compositing (main.go lines 347-353): `draw.Draw` with
`draw.Src` copies the sub-image into the destination rectangle
`(dx, dy)`-`(dx+w, dy+h)`, clipped to the canvas bounds. -/
def drawImageAt (img : RGBAImage) (sub : RGBAImage) (dx dy w h : ℕ) : RGBAImage :=
  { img with
    pix := fun x y =>
      if dx ≤ x ∧ x < dx + w ∧ dy ≤ y ∧ y < dy + h ∧ x < img.width ∧ y < img.height then
        sub.pix (x - dx) (y - dy)
      else img.pix x y }

/-- Canvas construction of `createStatsImage` (main.go lines 337-372):
1200×800 canvas, background fill, 160×160 resampled avatar at (53, 53),
title at (53+160+53, 147) in 72pt, and the four stat labels in 48pt at
rows y=293 and y=293+67, columns x=53 and x=640.  Returns the canvas,
the threaded font cache and the trace of the five `addLabel`
invocations in order. -/
def composeCard (env : FontEnv) (ds : DrawStringFn) (cache : FontCache)
    (stats : StatsData) (theme : Theme) : RGBAImage × FontCache × List LabelCmd :=
  let width := 1200
  let height := 800
  let img0 := fillBackground width height theme.BGColor
  let avatarSize := 160
  let resizedAvatar := resizeImage stats.Avatar avatarSize avatarSize
  let img1 := drawImageAt img0 resizedAvatar 53 53 avatarSize avatarSize
  let r1 := addLabel env ds img1 (53 + 160 + 53) 147 stats.Name theme.TitleColor 72 cache
  let r2 := addLabel env ds r1.1 53 293 (sprintfD "Followers: " stats.Followers)
    theme.StatsColor 48 r1.2.1
  let r3 := addLabel env ds r2.1 640 293 (sprintfD "Following: " stats.Following)
    theme.StatsColor 48 r2.2.1
  let r4 := addLabel env ds r3.1 53 (293 + 67) (sprintfD "Public Repos: " stats.PublicRepos)
    theme.StatsColor 48 r3.2.1
  let r5 := addLabel env ds r4.1 640 (293 + 67) (sprintfD "Total Stars: " stats.TotalStars)
    theme.StatsColor 48 r4.2.1
  (r5.1, r5.2.1, [r1.2.2, r2.2.2, r3.2.2, r4.2.2, r5.2.2])

/-- Embedding of `createStatsImage` (main.go lines 335-382): compose the
canvas, then run the PNG encoder (external, a parameter `enc`); an
encoder error is the only error path. -/
def createStatsImage (env : FontEnv) (ds : DrawStringFn)
    (enc : RGBAImage → Except String ℕ) (cache : FontCache)
    (stats : StatsData) (theme : Theme) : Except String ℕ × FontCache :=
  let r := composeCard env ds cache stats theme
  match enc r.1 with
  | Except.ok buf => (Except.ok buf, r.2.1)
  | Except.error e => (Except.error e, r.2.1)

/-! ## Helper lemmas on the font resolver -/

/-- Whether a candidate path yields a usable face at a size: readable,
parses, and face construction succeeds. -/
def usable (env : FontEnv) (size : ℤ) (p : String) : Bool :=
  match parseOf env p with
  | none => false
  | some pf => env.newFaceOk pf size

theorem tryPaths_fail (env : FontEnv) (size : ℤ) (l : List String)
    (h : ∀ p ∈ l, usable env size p = false) :
    tryPaths env size l = (none, l) := by
  induction l with
  | nil => rfl
  | cons p rest ih =>
    have hp := h p (List.mem_cons_self p rest)
    have hrest : ∀ q ∈ rest, usable env size q = false :=
      fun q hq => h q (List.mem_cons_of_mem p hq)
    unfold tryPaths
    unfold usable parseOf at hp
    cases hrf : env.readFile p with
    | none => simp [hrf, ih hrest]
    | some data =>
      simp only [hrf, Option.some_bind] at hp
      cases hpf : env.parse data with
      | none => simp [hrf, hpf, ih hrest]
      | some pf =>
        simp only [hpf] at hp
        simp [hrf, hpf, hp, ih hrest]

theorem tryPaths_path_mem (env : FontEnv) (size : ℤ) (l : List String)
    (f : FontFace) (h : (tryPaths env size l).1 = some f) : f.path ∈ l := by
  induction l with
  | nil => simp [tryPaths] at h
  | cons p rest ih =>
    unfold tryPaths at h
    cases hrf : env.readFile p with
    | none =>
      simp only [hrf] at h
      exact List.mem_cons_of_mem p (ih h)
    | some data =>
      simp only [hrf] at h
      cases hpf : env.parse data with
      | none =>
        simp only [hpf] at h
        exact List.mem_cons_of_mem p (ih h)
      | some pf =>
        simp only [hpf] at h
        by_cases hnf : env.newFaceOk pf size
        · rw [if_pos hnf] at h
          simp only [Option.some.injEq] at h
          subst h
          exact List.mem_cons_self p rest
        · rw [if_neg hnf] at h
          exact List.mem_cons_of_mem p (ih h)

theorem tryPaths_count (env : FontEnv) (size : ℤ) (l : List String)
    (f : FontFace) (h : (tryPaths env size l).1 = some f) (hnd : l.Nodup) :
    ((tryPaths env size l).2).count f.path = 1 := by
  induction l with
  | nil => simp [tryPaths] at h
  | cons p rest ih =>
    have hndr : rest.Nodup := (List.nodup_cons.mp hnd).2
    have hpn : p ∉ rest := (List.nodup_cons.mp hnd).1
    unfold tryPaths at h ⊢
    cases hrf : env.readFile p with
    | none =>
      simp only [hrf] at h ⊢
      have hne : f.path ≠ p := by
        intro he
        exact hpn (he ▸ tryPaths_path_mem env size rest f h)
      rw [List.count_cons_of_ne hne]
      exact ih h hndr
    | some data =>
      simp only [hrf] at h ⊢
      cases hpf : env.parse data with
      | none =>
        simp only [hpf] at h ⊢
        have hne : f.path ≠ p := by
          intro he
          exact hpn (he ▸ tryPaths_path_mem env size rest f h)
        rw [List.count_cons_of_ne hne]
        exact ih h hndr
      | some pf =>
        simp only [hpf] at h ⊢
        by_cases hnf : env.newFaceOk pf size
        · rw [if_pos hnf] at h ⊢
          simp only [Option.some.injEq] at h
          subst h
          simp
        · rw [if_neg hnf] at h ⊢
          have hne : f.path ≠ p := by
            intro he
            exact hpn (he ▸ tryPaths_path_mem env size rest f h)
          simp only at h ⊢
          rw [List.count_cons_of_ne hne]
          exact ih h hndr

theorem getFontFace_fail (env : FontEnv) (cache : FontCache) (s : ℤ)
    (hc : cache s = none) (hf : ∀ p ∈ fontPaths, usable env s p = false) :
    getFontFace env cache s = (none, cache, fontPaths) := by
  unfold getFontFace
  simp only [hc, tryPaths_fail env s fontPaths hf]

theorem fontPaths_nodup : fontPaths.Nodup := by decide

theorem tryPaths_find_none (env : FontEnv) (s : ℤ) (l : List String)
    (h : l.find? (fun p => (parseOf env p).isSome) = none) :
    tryPaths env s l = (none, l) := by
  refine tryPaths_fail env s l ?_
  intro p hp
  have hps := List.find?_eq_none.mp h p hp
  unfold usable
  cases hpe : parseOf env p with
  | none => rfl
  | some pf =>
    rw [hpe] at hps
    simp at hps

theorem tryPaths_find_some (env : FontEnv) (s : ℤ) (l : List String)
    (hNF : ∀ pf, env.newFaceOk pf s = true) (p₀ : String)
    (h : l.find? (fun p => (parseOf env p).isSome) = some p₀) :
    ∃ pf, parseOf env p₀ = some pf ∧
      (tryPaths env s l).1 = some ⟨p₀, pf, s, 72⟩ := by
  induction l with
  | nil => simp at h
  | cons p rest ih =>
    rw [List.find?_cons] at h
    cases hps : (parseOf env p).isSome with
    | true =>
      simp only [hps] at h
      simp only [Option.some.injEq] at h
      subst h
      cases hpe : parseOf env p with
      | none => rw [hpe] at hps; simp at hps
      | some pf =>
        refine ⟨pf, rfl, ?_⟩
        unfold parseOf at hpe
        unfold tryPaths
        cases hrf : env.readFile p with
        | none => rw [hrf] at hpe; simp at hpe
        | some data =>
          rw [hrf] at hpe
          simp only [Option.some_bind] at hpe
          simp only [hrf, hpe, hNF pf, if_pos]
    | false =>
      simp only [hps] at h
      obtain ⟨pf, hpe, htp⟩ := ih h
      refine ⟨pf, hpe, ?_⟩
      unfold parseOf at hps
      unfold tryPaths
      cases hrf : env.readFile p with
      | none => simp only [hrf]; exact htp
      | some data =>
        rw [hrf] at hps
        simp only [Option.some_bind] at hps
        cases hpd : env.parse data with
        | none => simp only [hrf, hpd]; exact htp
        | some pf' => rw [hpd] at hps; simp at hps

/-- C4.  For every size s for which the first resolution succeeds (from a
cache that does not yet hold s), a second sequential resolution of s
returns the identical cached FontFace instance with an empty `ReadFile`
log (no further filesystem I/O), and across the two resolutions the file
underlying the returned face is read exactly once. -/
theorem getFontFace_second_resolution_cached (env : FontEnv)
    (cache : FontCache) (s : ℤ) (f : FontFace) (c' : FontCache)
    (log : List String) (hmiss : cache s = none)
    (h1 : getFontFace env cache s = (some f, c', log)) :
    getFontFace env c' s = (some f, c', []) ∧
    (log ++ (getFontFace env c' s).2.2).count f.path = 1 := by
  unfold getFontFace at h1
  rw [hmiss] at h1
  cases htp : (tryPaths env s fontPaths).1 with
  | none =>
    simp only [htp] at h1
    exact absurd (congrArg Prod.fst h1) (by simp)
  | some face =>
    simp only [htp] at h1
    obtain ⟨hf, hc, hlog⟩ :
        some face = some f ∧ cacheInsert cache s face = c' ∧
          (tryPaths env s fontPaths).2 = log := by
      simpa [Prod.mk.injEq] using h1
    have hface : face = f := Option.some.inj hf
    subst hface
    subst hc
    subst hlog
    have hsecond : getFontFace env (cacheInsert cache s face) s =
        (some face, cacheInsert cache s face, []) := by
      unfold getFontFace
      simp [cacheInsert]
    refine ⟨hsecond, ?_⟩
    rw [hsecond]
    simp only [List.append_nil]
    exact tryPaths_count env s fontPaths face htp fontPaths_nodup

/-- Closed witness for `getFontFace_second_resolution_cached`: an
environment whose first candidate path is readable and parses. -/
theorem getFontFace_second_resolution_cached_witness :
    ((fun _ => none : FontCache) 48 = none) ∧
    (getFontFace ⟨fun _ => some 3, fun d => some d, fun _ _ => true⟩
        (fun _ => none) 48 =
      (some ⟨"/usr/share/fonts/truetype/inconsolata/Inconsolata.ttf", 3, 48, 72⟩,
        cacheInsert (fun _ => none) 48
          ⟨"/usr/share/fonts/truetype/inconsolata/Inconsolata.ttf", 3, 48, 72⟩,
        ["/usr/share/fonts/truetype/inconsolata/Inconsolata.ttf"])) ∧
    (getFontFace ⟨fun _ => some 3, fun d => some d, fun _ _ => true⟩
        (cacheInsert (fun _ => none) 48
          ⟨"/usr/share/fonts/truetype/inconsolata/Inconsolata.ttf", 3, 48, 72⟩) 48 =
      (some ⟨"/usr/share/fonts/truetype/inconsolata/Inconsolata.ttf", 3, 48, 72⟩,
        cacheInsert (fun _ => none) 48
          ⟨"/usr/share/fonts/truetype/inconsolata/Inconsolata.ttf", 3, 48, 72⟩,
        []) ∧
      (["/usr/share/fonts/truetype/inconsolata/Inconsolata.ttf"] ++
        (getFontFace ⟨fun _ => some 3, fun d => some d, fun _ _ => true⟩
          (cacheInsert (fun _ => none) 48
            ⟨"/usr/share/fonts/truetype/inconsolata/Inconsolata.ttf", 3, 48, 72⟩) 48).2.2).count
        "/usr/share/fonts/truetype/inconsolata/Inconsolata.ttf" = 1) :=
  ⟨rfl, rfl,
    getFontFace_second_resolution_cached
      ⟨fun _ => some 3, fun d => some d, fun _ _ => true⟩ (fun _ => none) 48
      ⟨"/usr/share/fonts/truetype/inconsolata/Inconsolata.ttf", 3, 48, 72⟩
      (cacheInsert (fun _ => none) 48
        ⟨"/usr/share/fonts/truetype/inconsolata/Inconsolata.ttf", 3, 48, 72⟩)
      ["/usr/share/fonts/truetype/inconsolata/Inconsolata.ttf"] rfl rfl⟩

/-- C5.  On a cache miss for size s (face construction for parsed fonts
assumed to succeed, as the spec folds it into parsing): the resolver
iterates `fontPaths` in order; if some candidate is readable and parses,
the first such path yields the returned face, built at s points and
72 DPI and stored in the cache keyed by s; if every candidate fails it
returns the nil face (`none`, `NotFound`) with the cache untouched —
totally, never raising an error. -/
theorem getFontFace_miss_candidate_order (env : FontEnv)
    (cache : FontCache) (s : ℤ) (hmiss : cache s = none)
    (hNF : ∀ pf, env.newFaceOk pf s = true) :
    (∀ p₀, fontPaths.find? (fun p => (parseOf env p).isSome) = some p₀ →
      ∃ pf, parseOf env p₀ = some pf ∧
        getFontFace env cache s =
          (some ⟨p₀, pf, s, 72⟩, cacheInsert cache s ⟨p₀, pf, s, 72⟩,
            (tryPaths env s fontPaths).2)) ∧
    (fontPaths.find? (fun p => (parseOf env p).isSome) = none →
      getFontFace env cache s = (none, cache, fontPaths)) := by
  constructor
  · intro p₀ hfind
    obtain ⟨pf, hpe, htp⟩ := tryPaths_find_some env s fontPaths hNF p₀ hfind
    refine ⟨pf, hpe, ?_⟩
    unfold getFontFace
    simp only [hmiss, htp]
  · intro hfind
    unfold getFontFace
    simp only [hmiss, tryPaths_find_none env s fontPaths hfind]

/-- Closed witness for `getFontFace_miss_candidate_order`: an environment
in which only the fourth candidate (the DejaVu path) is readable. -/
theorem getFontFace_miss_candidate_order_witness :
    ((fun _ => none : FontCache) 48 = none) ∧
    (∀ pf, (⟨fun p => if p = "/usr/share/fonts/truetype/dejavu/DejaVuSansMono.ttf"
        then some 7 else none, fun d => some d, fun _ _ => true⟩ : FontEnv).newFaceOk pf 48 =
        true) ∧
    ((∀ p₀, fontPaths.find? (fun p =>
        (parseOf ⟨fun p => if p = "/usr/share/fonts/truetype/dejavu/DejaVuSansMono.ttf"
          then some 7 else none, fun d => some d, fun _ _ => true⟩ p).isSome) = some p₀ →
      ∃ pf, parseOf ⟨fun p => if p = "/usr/share/fonts/truetype/dejavu/DejaVuSansMono.ttf"
          then some 7 else none, fun d => some d, fun _ _ => true⟩ p₀ = some pf ∧
        getFontFace ⟨fun p => if p = "/usr/share/fonts/truetype/dejavu/DejaVuSansMono.ttf"
            then some 7 else none, fun d => some d, fun _ _ => true⟩ (fun _ => none) 48 =
          (some ⟨p₀, pf, 48, 72⟩, cacheInsert (fun _ => none) 48 ⟨p₀, pf, 48, 72⟩,
            (tryPaths ⟨fun p => if p = "/usr/share/fonts/truetype/dejavu/DejaVuSansMono.ttf"
              then some 7 else none, fun d => some d, fun _ _ => true⟩ 48 fontPaths).2)) ∧
    (fontPaths.find? (fun p =>
        (parseOf ⟨fun p => if p = "/usr/share/fonts/truetype/dejavu/DejaVuSansMono.ttf"
          then some 7 else none, fun d => some d, fun _ _ => true⟩ p).isSome) = none →
      getFontFace ⟨fun p => if p = "/usr/share/fonts/truetype/dejavu/DejaVuSansMono.ttf"
          then some 7 else none, fun d => some d, fun _ _ => true⟩ (fun _ => none) 48 =
        (none, fun _ => none, fontPaths))) :=
  ⟨rfl, fun _ => rfl,
    getFontFace_miss_candidate_order
      ⟨fun p => if p = "/usr/share/fonts/truetype/dejavu/DejaVuSansMono.ttf"
        then some 7 else none, fun d => some d, fun _ _ => true⟩
      (fun _ => none) 48 rfl (fun _ => rfl)⟩

/-- C10.  For a size s for which no candidate path yields a usable face,
the resolver returns the nil face with the cache left unchanged (the
failure is not cached) after reading every candidate path, and a
subsequent resolution of s therefore performs the full filesystem scan
again, reading every candidate path a second time. -/
theorem getFontFace_failure_not_cached (env : FontEnv) (cache : FontCache)
    (s : ℤ) (hmiss : cache s = none)
    (hf : ∀ p ∈ fontPaths, usable env s p = false) :
    getFontFace env cache s = (none, cache, fontPaths) ∧
    getFontFace env (getFontFace env cache s).2.1 s = (none, cache, fontPaths) := by
  have h1 := getFontFace_fail env cache s hmiss hf
  refine ⟨h1, ?_⟩
  rw [h1]
  exact h1

/-- Closed witness for `getFontFace_failure_not_cached`: an environment
in which no path is readable. -/
theorem getFontFace_failure_not_cached_witness :
    ((fun _ => none : FontCache) 48 = none) ∧
    (∀ p ∈ fontPaths,
      usable ⟨fun _ => none, fun d => some d, fun _ _ => true⟩ 48 p = false) ∧
    (getFontFace ⟨fun _ => none, fun d => some d, fun _ _ => true⟩
        (fun _ => none) 48 = (none, fun _ => none, fontPaths) ∧
      getFontFace ⟨fun _ => none, fun d => some d, fun _ _ => true⟩
        ((getFontFace ⟨fun _ => none, fun d => some d, fun _ _ => true⟩
          (fun _ => none) 48).2.1) 48 = (none, fun _ => none, fontPaths)) :=
  ⟨rfl, fun _ _ => rfl,
    getFontFace_failure_not_cached ⟨fun _ => none, fun d => some d, fun _ _ => true⟩
      (fun _ => none) 48 rfl (fun _ _ => rfl)⟩

/-- C7.  Theme resolution is a total function (never raises): lookup is
a case-sensitive exact match against the closed theme table, and every
unknown name — the empty string included — resolves to the same palette
as `"light"`. -/
theorem resolveTheme_total_fallback :
    (∀ name t, themes.lookup name = some t → resolveTheme name = t) ∧
    (∀ name, themes.lookup name = none → resolveTheme name = resolveTheme "light") ∧
    resolveTheme "" = resolveTheme "light" ∧
    resolveTheme "light" = lightTheme ∧
    resolveTheme "Dark" = resolveTheme "light" ∧
    resolveTheme "dark" = darkTheme ∧
    resolveTheme "a" = aTheme := by
  refine ⟨?_, ?_, rfl, rfl, rfl, rfl, rfl⟩
  · intro name t h
    unfold resolveTheme
    rw [h]
  · intro name h
    unfold resolveTheme
    rw [h]
    rfl

/-- Closed witness for `resolveTheme_total_fallback`: the exact-match and
the fallback clause, each applied at a concrete name. -/
theorem resolveTheme_total_fallback_witness :
    themes.lookup "dark" = some darkTheme ∧ resolveTheme "dark" = darkTheme ∧
    themes.lookup "nonexistent" = none ∧
    resolveTheme "nonexistent" = resolveTheme "light" :=
  ⟨rfl, resolveTheme_total_fallback.1 "dark" darkTheme rfl, rfl,
    resolveTheme_total_fallback.2.1 "nonexistent" rfl⟩

/-- C8.  For every StatsRecord and theme, the compositor requests the
title at (53+160+53, 147) = (266, 147) in 72pt `theme.TitleColor` and
the four metric labels in 48pt `theme.StatsColor` at the fixed anchors
(53, 293), (640, 293), (53, 360) and (640, 360) — the second row at
293 + 67 = 360 — with the texts `"Followers: {followers}"`,
`"Following: {following}"`, `"Public Repos: {publicRepos}"` and
`"Total Stars: {totalStars}"`, in this order. -/
theorem composeCard_stat_label_anchors (env : FontEnv) (ds : DrawStringFn)
    (cache : FontCache) (stats : StatsData) (theme : Theme) :
    (composeCard env ds cache stats theme).2.2 =
      [⟨266, 147, stats.Name, theme.TitleColor, 72⟩,
       ⟨53, 293, "Followers: " ++ toString stats.Followers, theme.StatsColor, 48⟩,
       ⟨640, 293, "Following: " ++ toString stats.Following, theme.StatsColor, 48⟩,
       ⟨53, 360, "Public Repos: " ++ toString stats.PublicRepos, theme.StatsColor, 48⟩,
       ⟨640, 360, "Total Stars: " ++ toString stats.TotalStars, theme.StatsColor, 48⟩] := by
  rfl

theorem addLabel_skip (env : FontEnv) (ds : DrawStringFn) (img : RGBAImage)
    (x y : ℤ) (label : String) (clr : GoColor64) (s : ℤ)
    (hfail : ∀ p ∈ fontPaths, usable env s p = false) :
    addLabel env ds img x y label clr s (fun _ => none) =
      (img, fun _ => none, ⟨x, y, label, clr, s⟩) := by
  unfold addLabel
  simp only [getFontFace_fail env (fun _ => none) s rfl hfail]
  rfl

/-- C3.  When font resolution fails (`NotFound`) for every size — no
cached face, no usable candidate path — the renderer still produces a
full 1200×800 canvas with the background fill everywhere and the
resampled avatar in its 160×160 rectangle at (53, 53); a label whose
face resolves to nil is skipped leaving the canvas unchanged; and
`createStatsImage` returns an error only when the encoder does. -/
theorem createStatsImage_missing_font_degradation
    (env : FontEnv) (ds : DrawStringFn) (enc : RGBAImage → Except String ℕ)
    (stats : StatsData) (theme : Theme)
    (hW : 1 ≤ stats.Avatar.maxX - stats.Avatar.minX)
    (hH : 1 ≤ stats.Avatar.maxY - stats.Avatar.minY)
    (hfail : ∀ s : ℤ, ∀ p ∈ fontPaths, usable env s p = false) :
    ((composeCard env ds (fun _ => none) stats theme).1.width = 1200 ∧
      (composeCard env ds (fun _ => none) stats theme).1.height = 800) ∧
    (∀ x y : ℕ, x < 1200 → y < 800 →
      (composeCard env ds (fun _ => none) stats theme).1.pix x y =
        if 53 ≤ x ∧ x < 213 ∧ 53 ≤ y ∧ y < 213 then
          (resizeImage stats.Avatar 160 160).pix (x - 53) (y - 53)
        else quant theme.BGColor) ∧
    (∀ (img : RGBAImage) (x y : ℤ) (label : String) (clr : GoColor64)
        (s : ℤ) (c : FontCache), (getFontFace env c s).1 = none →
      (addLabel env ds img x y label clr s c).1 = img) ∧
    (∀ e, (createStatsImage env ds enc (fun _ => none) stats theme).1 =
        Except.error e →
      enc (composeCard env ds (fun _ => none) stats theme).1 = Except.error e) := by
  have h72 := fun img x y label clr =>
    addLabel_skip env ds img x y label clr 72 (hfail 72)
  have h48 := fun img x y label clr =>
    addLabel_skip env ds img x y label clr 48 (hfail 48)
  have hcc : (composeCard env ds (fun _ => none) stats theme).1 =
      drawImageAt (fillBackground 1200 800 theme.BGColor)
        (resizeImage stats.Avatar 160 160) 53 53 160 160 := by
    unfold composeCard
    simp only [h72, h48]
  refine ⟨⟨by rw [hcc]; rfl, by rw [hcc]; rfl⟩, ?_, ?_, ?_⟩
  · intro x y hx hy
    rw [hcc]
    simp only [drawImageAt, fillBackground]
    by_cases hin : 53 ≤ x ∧ x < 213 ∧ 53 ≤ y ∧ y < 213
    · have hc1 : 53 ≤ x ∧ x < 53 + 160 ∧ 53 ≤ y ∧ y < 53 + 160 ∧
          x < 1200 ∧ y < 800 := by omega
      rw [if_pos hc1, if_pos hin]
    · have hc1 : ¬(53 ≤ x ∧ x < 53 + 160 ∧ 53 ≤ y ∧ y < 53 + 160 ∧
          x < 1200 ∧ y < 800) := by omega
      rw [if_neg hc1, if_neg hin, if_pos (⟨hx, hy⟩ : x < 1200 ∧ y < 800)]
  · intro img x y label clr s c h
    unfold addLabel
    dsimp only
    rw [h]
    rfl
  · intro e he
    replace he :
        (match enc (composeCard env ds (fun _ => none) stats theme).1 with
          | Except.ok buf =>
            ((Except.ok buf : Except String ℕ),
              (composeCard env ds (fun _ => none) stats theme).2.1)
          | Except.error er =>
            (Except.error er,
              (composeCard env ds (fun _ => none) stats theme).2.1)).1 =
          Except.error e := he
    cases henc : enc (composeCard env ds (fun _ => none) stats theme).1 with
    | ok b =>
      rw [henc] at he
      exact absurd he (by simp)
    | error e' =>
      rw [henc] at he
      simp at he
      rw [he]

/-- Concrete inputs for the missing-font witness: an unreadable
filesystem, an identity rasterizer, an always-succeeding encoder and a
1×1 white avatar. -/
def c3Env : FontEnv := ⟨fun _ => none, fun d => some d, fun _ _ => true⟩

/-- Identity rasterizer used by the missing-font witness. -/
def c3Ds : DrawStringFn := fun _ _ _ _ _ img => img

/-- Always-succeeding encoder used by the missing-font witness. -/
def c3Enc : RGBAImage → Except String ℕ := fun _ => Except.ok 0

/-- StatsRecord used by the missing-font witness. -/
def c3Stats : StatsData :=
  ⟨"octocat", ⟨0, 0, 1, 1, fun _ _ => ⟨65535, 65535, 65535, 65535⟩⟩, 10, 5, 3, 42⟩

/-- Closed witness for `createStatsImage_missing_font_degradation`. -/
theorem createStatsImage_missing_font_degradation_witness :
    (1 ≤ c3Stats.Avatar.maxX - c3Stats.Avatar.minX) ∧
    (1 ≤ c3Stats.Avatar.maxY - c3Stats.Avatar.minY) ∧
    (∀ s : ℤ, ∀ p ∈ fontPaths, usable c3Env s p = false) ∧
    (((composeCard c3Env c3Ds (fun _ => none) c3Stats darkTheme).1.width = 1200 ∧
      (composeCard c3Env c3Ds (fun _ => none) c3Stats darkTheme).1.height = 800) ∧
    (∀ x y : ℕ, x < 1200 → y < 800 →
      (composeCard c3Env c3Ds (fun _ => none) c3Stats darkTheme).1.pix x y =
        if 53 ≤ x ∧ x < 213 ∧ 53 ≤ y ∧ y < 213 then
          (resizeImage c3Stats.Avatar 160 160).pix (x - 53) (y - 53)
        else quant darkTheme.BGColor) ∧
    (∀ (img : RGBAImage) (x y : ℤ) (label : String) (clr : GoColor64)
        (s : ℤ) (c : FontCache), (getFontFace c3Env c s).1 = none →
      (addLabel c3Env c3Ds img x y label clr s c).1 = img) ∧
    (∀ e, (createStatsImage c3Env c3Ds c3Enc (fun _ => none) c3Stats darkTheme).1 =
        Except.error e →
      c3Enc (composeCard c3Env c3Ds (fun _ => none) c3Stats darkTheme).1 =
        Except.error e)) :=
  ⟨by decide, by decide, fun s p hp => rfl,
    createStatsImage_missing_font_degradation c3Env c3Ds c3Enc c3Stats darkTheme
      (by decide) (by decide) (fun s p hp => rfl)⟩

/-- C6.  The resampled output has exactly the requested dimensions and
every output pixel is the verbatim 8-bit quantization of some source
pixel — the sampled coordinate always lies in
`[0, srcW-1] × [0, srcH-1]` — so no interpolation or blending occurs and
the output uses only (quantized) source palette values. -/
theorem resizeImage_palette_subset (src : GoImage) (W H : ℕ)
    (hsw : 1 ≤ src.maxX - src.minX) (hsh : 1 ≤ src.maxY - src.minY)
    (hW : 1 ≤ W) (hH : 1 ≤ H) :
    (resizeImage src W H).width = W ∧ (resizeImage src W H).height = H ∧
    ∀ x y : ℕ, x < W → y < H →
      ∃ i j : ℤ, 0 ≤ i ∧ i < src.maxX - src.minX ∧
        0 ≤ j ∧ j < src.maxY - src.minY ∧
        (resizeImage src W H).pix x y =
          quant (src.atRGBA (src.minX + i) (src.minY + j)) := by
  refine ⟨rfl, rfl, ?_⟩
  intro x y hx hy
  refine ⟨clampCoord (src.maxX - src.minX) W x,
    clampCoord (src.maxY - src.minY) H y,
    clampCoord_nonneg _ _ _ hsw, clampCoord_lt _ _ _,
    clampCoord_nonneg _ _ _ hsh, clampCoord_lt _ _ _, ?_⟩
  simp only [resizeImage]
  rw [if_pos ⟨hx, hy⟩]

/-- Concrete 2×1 source image used by the resampling witnesses and the
resampling counterexample: pixel (0,0) is black, pixel (1,0) is white. -/
def cexSrc : GoImage :=
  ⟨0, 0, 2, 1, fun x _ =>
    if x = 1 then ⟨65535, 65535, 65535, 65535⟩ else ⟨0, 0, 0, 0⟩⟩

/-- Closed witness for `resizeImage_palette_subset` at the 2×1 source and
a 3×2 target. -/
theorem resizeImage_palette_subset_witness :
    (1 ≤ cexSrc.maxX - cexSrc.minX) ∧ (1 ≤ cexSrc.maxY - cexSrc.minY) ∧
    (1 ≤ 3) ∧ (1 ≤ 2) ∧
    ((resizeImage cexSrc 3 2).width = 3 ∧ (resizeImage cexSrc 3 2).height = 2 ∧
    ∀ x y : ℕ, x < 3 → y < 2 →
      ∃ i j : ℤ, 0 ≤ i ∧ i < cexSrc.maxX - cexSrc.minX ∧
        0 ≤ j ∧ j < cexSrc.maxY - cexSrc.minY ∧
        (resizeImage cexSrc 3 2).pix x y =
          quant (cexSrc.atRGBA (cexSrc.minX + i) (cexSrc.minY + j))) :=
  ⟨by decide, by decide, by decide, by decide,
    resizeImage_palette_subset cexSrc 3 2 (by decide) (by decide)
      (by decide) (by decide)⟩

/-- C9.  Resampling a 1×1 source to any positive W×H target yields a
uniform bitmap: every pixel is the (quantized) single source pixel. -/
theorem resizeImage_one_by_one_uniform (src : GoImage) (W H : ℕ)
    (hsw : src.maxX = src.minX + 1) (hsh : src.maxY = src.minY + 1)
    (hW : 1 ≤ W) (hH : 1 ≤ H) :
    (resizeImage src W H).width = W ∧ (resizeImage src W H).height = H ∧
    ∀ x y : ℕ, x < W → y < H →
      (resizeImage src W H).pix x y = quant (src.atRGBA src.minX src.minY) := by
  refine ⟨rfl, rfl, ?_⟩
  intro x y hx hy
  have hcx : clampCoord (src.maxX - src.minX) W x = 0 := by
    have h1 := clampCoord_nonneg (src.maxX - src.minX) W x (by omega)
    have h2 := clampCoord_lt (src.maxX - src.minX) W x
    omega
  have hcy : clampCoord (src.maxY - src.minY) H y = 0 := by
    have h1 := clampCoord_nonneg (src.maxY - src.minY) H y (by omega)
    have h2 := clampCoord_lt (src.maxY - src.minY) H y
    omega
  simp only [resizeImage]
  rw [if_pos ⟨hx, hy⟩, hcx, hcy, add_zero, add_zero]

/-- Concrete 1×1 red source for the 1×1 witness. -/
def oneSrc : GoImage := ⟨0, 0, 1, 1, fun _ _ => ⟨65535, 0, 0, 65535⟩⟩

/-- Closed witness for `resizeImage_one_by_one_uniform` at a 7×4 target. -/
theorem resizeImage_one_by_one_uniform_witness :
    (oneSrc.maxX = oneSrc.minX + 1) ∧ (oneSrc.maxY = oneSrc.minY + 1) ∧
    (1 ≤ 7) ∧ (1 ≤ 4) ∧
    ((resizeImage oneSrc 7 4).width = 7 ∧ (resizeImage oneSrc 7 4).height = 4 ∧
    ∀ x y : ℕ, x < 7 → y < 4 →
      (resizeImage oneSrc 7 4).pix x y = quant (oneSrc.atRGBA oneSrc.minX oneSrc.minY)) :=
  ⟨by decide, by decide, by decide, by decide,
    resizeImage_one_by_one_uniform oneSrc 7 4 (by decide) (by decide)
      (by decide) (by decide)⟩

section

attribute [local semireducible] Rat.mul Rat.inv Rat.add Rat.sub Rat.ofScientific

set_option maxRecDepth 4000

/-- C1 counterexample.  For the 2×1 source `cexSrc` resampled to 98×1,
the specified source coordinate of destination pixel (49, 0) is
`floor(49 * 2 / 98) = 1` (already inside `[0, srcW-1]`, so clamping does
not change it), whose pixel quantizes to white; but the code's binary64
evaluation `int(float64(49) * (float64(2) / float64(98)))` yields 0
(the double `2/98` rounds just below `1/49`), so the output pixel is
black — the produced pixel differs from the pixel at the claimed
floor coordinate. -/
theorem resizeImage_floor_spec_cex :
    ((49 * 2 / 98 : ℕ) : ℤ) = 1 ∧
    quant (cexSrc.atRGBA (cexSrc.minX + ((49 * 2 / 98 : ℕ) : ℤ)) (cexSrc.minY + 0)) =
      ⟨255, 255, 255, 255⟩ ∧
    (resizeImage cexSrc 98 1).pix 49 0 = ⟨0, 0, 0, 0⟩ ∧
    (resizeImage cexSrc 98 1).pix 49 0 ≠
      quant (cexSrc.atRGBA (cexSrc.minX + ((49 * 2 / 98 : ℕ) : ℤ)) (cexSrc.minY + 0)) := by
  refine ⟨by decide, by decide, ?_, ?_⟩
  · decide
  · decide

end

/-- C1 amended.  For every source bitmap of width and height at least 1
and positive target W×H, `resizeImage` returns a bitmap of exactly W×H
pixels in which the pixel at destination (x, y) is copied (8-bit
quantized) from the source pixel at the coordinate pair
`(clampCoord srcW W x, clampCoord srcH H y)` — the binary64 evaluation
of `floor(x * srcW/W)` / `floor(y * srcH/H)` with the code's upper
clamp — and this coordinate always lies in
`[0, srcW-1] × [0, srcH-1]`.  The binary64 value can differ from the
exact rational floor of the original claim (see the counterexample
above). -/
theorem resizeImage_pixel_double_rounding (src : GoImage) (W H : ℕ)
    (hsw : 1 ≤ src.maxX - src.minX) (hsh : 1 ≤ src.maxY - src.minY)
    (hW : 1 ≤ W) (hH : 1 ≤ H) :
    (resizeImage src W H).width = W ∧ (resizeImage src W H).height = H ∧
    ∀ x y : ℕ, x < W → y < H →
      (0 ≤ clampCoord (src.maxX - src.minX) W x ∧
        clampCoord (src.maxX - src.minX) W x < src.maxX - src.minX) ∧
      (0 ≤ clampCoord (src.maxY - src.minY) H y ∧
        clampCoord (src.maxY - src.minY) H y < src.maxY - src.minY) ∧
      (resizeImage src W H).pix x y =
        quant (src.atRGBA (src.minX + clampCoord (src.maxX - src.minX) W x)
          (src.minY + clampCoord (src.maxY - src.minY) H y)) := by
  refine ⟨rfl, rfl, ?_⟩
  intro x y hx hy
  refine ⟨⟨clampCoord_nonneg _ _ _ hsw, clampCoord_lt _ _ _⟩,
    ⟨clampCoord_nonneg _ _ _ hsh, clampCoord_lt _ _ _⟩, ?_⟩
  simp only [resizeImage]
  rw [if_pos ⟨hx, hy⟩]

/-- Closed witness for `resizeImage_pixel_double_rounding` at the 2×1
source and a 98×1 target. -/
theorem resizeImage_pixel_double_rounding_witness :
    (1 ≤ cexSrc.maxX - cexSrc.minX) ∧ (1 ≤ cexSrc.maxY - cexSrc.minY) ∧
    (1 ≤ 98) ∧ (1 ≤ 1) ∧
    ((resizeImage cexSrc 98 1).width = 98 ∧ (resizeImage cexSrc 98 1).height = 1 ∧
    ∀ x y : ℕ, x < 98 → y < 1 →
      (0 ≤ clampCoord (cexSrc.maxX - cexSrc.minX) 98 x ∧
        clampCoord (cexSrc.maxX - cexSrc.minX) 98 x < cexSrc.maxX - cexSrc.minX) ∧
      (0 ≤ clampCoord (cexSrc.maxY - cexSrc.minY) 1 y ∧
        clampCoord (cexSrc.maxY - cexSrc.minY) 1 y < cexSrc.maxY - cexSrc.minY) ∧
      (resizeImage cexSrc 98 1).pix x y =
        quant (cexSrc.atRGBA (cexSrc.minX + clampCoord (cexSrc.maxX - cexSrc.minX) 98 x)
          (cexSrc.minY + clampCoord (cexSrc.maxY - cexSrc.minY) 1 y))) :=
  ⟨by decide, by decide, by decide, by decide,
    resizeImage_pixel_double_rounding cexSrc 98 1 (by decide) (by decide)
      (by decide) (by decide)⟩
